import Mathlib

/-!
# Verification of novabot core components

Shallow embedding of the novabot agent's core data structures and
operations, translated from the Python source:

* `src/core/nervous_system/outbox.py`        — `DurableOutbox`
* `src/core/nervous_system/policy_gate.py`   — `PolicyGate`
* `src/core/nervous_system/dead_letter_queue.py` — `DeadLetterQueue`
* `src/core/brain/digital_clone_brain.py`    — `DigitalCloneBrain`
* `src/core/brain/working_memory.py`         — pending actions
* `src/core/context_thalamus.py`             — `ContextThalamus` budgets
* `src/core/tools/reminder.py`               — `ReminderTool._set_reminder`

Python dicts are modelled as association lists with shadowing insert
(`dictInsert`); only lookup semantics matter for the properties proved
here, not iteration order.  Timestamps (ISO-8601 strings in the source,
which compare chronologically under string comparison for the fixed
format the code writes) are modelled as integers.  Python strings are
modelled as `List Char`.
-/

namespace Novabot

/-- Python dict assignment `d[k] = v`: bind `k` to `v`, shadowing any
previous binding.  Only lookup semantics are modelled, not insertion
order. -/
def dictInsert {α : Type} (s : List (String × α)) (k : String) (v : α) :
    List (String × α) :=
  (k, v) :: s.filter (fun p => p.1 != k)

theorem lookup_dictInsert_self {α : Type} (s : List (String × α)) (k : String) (v : α) :
    (dictInsert s k v).lookup k = some v := by
  simp [dictInsert, List.lookup]

theorem lookup_filter_ne {α : Type} (s : List (String × α)) (k k' : String)
    (h : k' ≠ k) : (s.filter (fun p => p.1 != k)).lookup k' = s.lookup k' := by
  induction s with
  | nil => rfl
  | cons p rest ih =>
    obtain ⟨pk, pv⟩ := p
    by_cases hpk : pk = k
    · subst hpk
      have hk' : (k' == pk) = false := by simpa using h
      simp [List.filter_cons, List.lookup, hk', ih]
    · have hne : (pk != k) = true := by simpa using hpk
      by_cases hk' : k' = pk
      · subst hk'
        simp [List.filter_cons, List.lookup, hne]
      · have hk'b : (k' == pk) = false := by simpa using hk'
        simp [List.filter_cons, List.lookup, hne, hk'b, ih]

theorem lookup_dictInsert_ne {α : Type} (s : List (String × α)) (k k' : String) (v : α)
    (h : k' ≠ k) : (dictInsert s k v).lookup k' = s.lookup k' := by
  have hke : (k' == k) = false := by simpa using h
  simp only [dictInsert, List.lookup, hke]
  exact lookup_filter_ne s k k' h

theorem lookup_filter_self {α : Type} (s : List (String × α)) (k : String) :
    (s.filter (fun p => p.1 != k)).lookup k = none := by
  induction s with
  | nil => rfl
  | cons p rest ih =>
    by_cases hpk : p.1 = k
    · have hb : (p.1 != k) = false := by simp [hpk]
      simp [List.filter_cons, hb, ih]
    · have hb : (p.1 != k) = true := by simpa using hpk
      have hk : (k == p.1) = false := beq_eq_false_iff_ne.mpr (fun he => hpk he.symm)
      simp [List.filter_cons, hb, List.lookup, hk, ih]

/-! ## Durable outbox (`src/core/nervous_system/outbox.py`) -/

namespace Outbox

/-- Entry status string written by the outbox: `"pending"`, `"sent"` or
`"failed"`. -/
inductive Status
  | pending
  | sent
  | failed
  deriving DecidableEq, Repr

/-- One record of `data/outbox.json`.  `argsSummary` mirrors
`{k: str(v)[:100] for k, v in args.items()}`; `recordedAt`, `sentAt` and
`failedAt` are the ISO timestamps as integers. -/
structure Entry where
  status : Status
  tool : String
  operation : String
  argsSummary : List (String × String)
  recordedAt : Int
  sentAt : Option Int := none
  failedAt : Option Int := none
  error : Option String := none
  deriving DecidableEq, Repr

/-- The outbox file contents: a dict keyed by idempotency key. -/
abbrev OutboxState := List (String × Entry)

/-- `DurableOutbox.record_pending`: unconditionally (re)binds `key` to a
fresh entry with status `"pending"`. -/
def recordPending (s : OutboxState) (key tool operation : String)
    (args : List (String × String)) (now : Int) : OutboxState :=
  dictInsert s key
    { status := .pending
      tool := tool
      operation := operation
      argsSummary := args.map (fun p => (p.1, ⟨p.2.toList.take 100⟩))
      recordedAt := now }

/-- `DurableOutbox.mark_sent`: if `key` is present, set its status to
`"sent"` and stamp `sent_at`; otherwise leave the state unchanged. -/
def markSent (s : OutboxState) (key : String) (now : Int) : OutboxState :=
  match s.lookup key with
  | some e => dictInsert s key { e with status := .sent, sentAt := some now }
  | none => s

/-- `DurableOutbox.mark_failed`: if `key` is present, set its status to
`"failed"`, record the error and stamp `failed_at`. -/
def markFailed (s : OutboxState) (key : String) (err : String) (now : Int) : OutboxState :=
  match s.lookup key with
  | some e => dictInsert s key { e with status := .failed, error := some err, failedAt := some now }
  | none => s

/-- `DurableOutbox.is_duplicate`: true iff `key` is present with status
`"sent"`. -/
def isDuplicate (s : OutboxState) (key : String) : Bool :=
  match s.lookup key with
  | some e => e.status == .sent
  | none => false

/-- `DurableOutbox.cleanup_old`: keep exactly the entries whose
`recorded_at` is strictly greater than `now - days` (the cutoff); the
comparison is on the timestamp only, the entry's status is not
consulted.  `days` is scaled to seconds. -/
def cleanupOld (s : OutboxState) (now : Int) (days : Int) : OutboxState :=
  s.filter (fun p => p.2.recordedAt > now - days * 86400)

theorem lookup_recordPending_self (s : OutboxState) (k tool op : String)
    (args : List (String × String)) (now : Int) :
    (recordPending s k tool op args now).lookup k =
      some { status := .pending, tool := tool, operation := op,
             argsSummary := args.map (fun p => (p.1, ⟨p.2.toList.take 100⟩)),
             recordedAt := now } :=
  lookup_dictInsert_self ..

/-- C2 counterexample: after `record_pending(k); mark_sent(k); record_pending(k)`
the entry's status has been overwritten to `"pending"`, so `is_duplicate(k)`
is `false` at this concrete input, contradicting the claim that it is `true`. -/
theorem c2_counterexample :
    isDuplicate
      (recordPending
        (markSent (recordPending [] "k1" "email" "send_email" [] 0) "k1" 1)
        "k1" "email" "send_email" [] 2) "k1" = false := by decide

/-- C2 (amended): after `record_pending(k); mark_sent(k)` the key is observed
as a duplicate, but a subsequent `record_pending(k)` overwrites the entry with
a fresh `"pending"` record, after which `is_duplicate(k)` returns `false`. -/
theorem c2_sent_then_repend (s : OutboxState) (k tool op : String)
    (args : List (String × String)) (t1 t2 t3 : Int) :
    isDuplicate (markSent (recordPending s k tool op args t1) k t2) k = true ∧
    isDuplicate
      (recordPending (markSent (recordPending s k tool op args t1) k t2)
        k tool op args t3) k = false := by
  constructor
  · simp [markSent, lookup_recordPending_self, isDuplicate, lookup_dictInsert_self]
  · simp [isDuplicate, lookup_recordPending_self]

/-- C3 counterexample: an entry with status `"pending"` recorded at time 0 is
removed by `cleanup_old(days=7)` run at time 8 days, though the claim requires
pending entries to survive regardless of age. -/
theorem c3_counterexample :
    cleanupOld
      [("k1", { status := .pending, tool := "email", operation := "send_email",
                argsSummary := [], recordedAt := 0 })]
      (8 * 86400) 7 = [] := by decide

/-- C3 (amended): `cleanup_old(days=7)` keeps exactly the entries recorded
strictly after the 7-day cutoff, regardless of status: pending entries older
than the cutoff are removed just like sent or failed ones, and every entry
recorded after the cutoff is kept. -/
theorem c3_cleanup_keeps_iff_recent (s : OutboxState) (now : Int) (k : String)
    (e : Entry) :
    (k, e) ∈ cleanupOld s now 7 ↔ (k, e) ∈ s ∧ e.recordedAt > now - 7 * 86400 := by
  simp [cleanupOld, List.mem_filter]

end Outbox

/-! ## Policy gate (`src/core/nervous_system/policy_gate.py`) -/

namespace PolicyGate

/-- `RiskLevel` enum: READ, WRITE, IRREVERSIBLE. -/
inductive RiskLevel
  | read
  | write
  | irreversible
  deriving DecidableEq, Repr

/-- `TOOL_RISK_MAP`: per tool, the operation-specific risk overrides and
the tool's `"_default"` risk. -/
def toolRiskMap : List (String × (List (String × RiskLevel) × RiskLevel)) :=
  [ ("bash", ([], .write)),
    ("file_operations", ([], .write)),
    ("web_search", ([], .read)),
    ("web_fetch", ([], .read)),
    ("browser", ([], .read)),
    ("email", ([("read_emails", .read), ("search_emails", .read),
                ("send_email", .irreversible), ("reply_email", .irreversible)], .write)),
    ("calendar", ([("list_events", .read), ("search_events", .read),
                   ("create_event", .write), ("delete_event", .irreversible)], .write)),
    ("x_tool", ([("post_tweet", .irreversible), ("post_to_community", .irreversible),
                 ("delete_tweet", .irreversible)], .irreversible)),
    ("reminder", ([("set_reminder", .write), ("list_reminders", .read),
                   ("cancel_reminder", .write)], .write)),
    ("nova_task", ([], .write)),
    ("contacts", ([], .read)),
    ("linkedin", ([], .write)),
    ("send_whatsapp_message", ([], .irreversible)),
    ("make_phone_call", ([], .irreversible)),
    ("clock", ([], .read)) ]

/-- `PolicyGate._get_risk_level`: operation override when the (truthy)
operation is listed for the tool, otherwise the tool's `"_default"`;
unknown tools fall back to WRITE. -/
def getRiskLevel (tool : String) (operation : Option String) : RiskLevel :=
  match toolRiskMap.lookup tool with
  | none => .write
  | some (ops, dflt) =>
    match operation with
    | some op => if op ≠ "" then (ops.lookup op).getD dflt else dflt
    | none => dflt

/-- Mutable state of a `PolicyGate` instance: the `require_approval` flag
and the per-run `_tool_call_counts` dict. -/
structure GateState where
  requireApproval : Bool
  counts : List (String × Nat)
  deriving Repr

/-- `_max_calls_per_run = 20`. -/
def maxCallsPerRun : Nat := 20

/-- The reason string returned when the per-run cap is hit. -/
def blockedReason (tool : String) : String :=
  "Tool " ++ tool ++ " exceeded max calls per run (20)"

/-- The reason string returned in approval mode for irreversible actions. -/
def approvalReason (tool : String) (operation : Option String) : String :=
  "Irreversible action '" ++ tool ++ "." ++ operation.getD "None" ++
    "' requires user approval"

/-- `PolicyGate.check`: block when the tool's per-run count has reached the
cap; otherwise increment the count, then block irreversible actions in
approval mode; otherwise allow.  Returns `((allowed, reason), new state)`. -/
def check (g : GateState) (tool : String) (operation : Option String) :
    (Bool × String) × GateState :=
  let risk := getRiskLevel tool operation
  let callCount := (g.counts.lookup tool).getD 0
  if callCount ≥ maxCallsPerRun then
    ((false, blockedReason tool), g)
  else
    let g' := { g with counts := dictInsert g.counts tool (callCount + 1) }
    if risk = RiskLevel.irreversible ∧ g.requireApproval then
      ((false, approvalReason tool operation), g')
    else
      ((true, "allowed"), g')

/-- `PolicyGate.reset_run_counts`: clear the per-run counters. -/
def resetRunCounts (g : GateState) : GateState :=
  { g with counts := [] }

/-- State after a sequence of `check` calls (results discarded). -/
def gateAfter (g : GateState) (calls : List (String × Option String)) : GateState :=
  calls.foldl (fun g c => (check g c.1 c.2).2) g

/-- Number of calls naming tool `t` in a call sequence. -/
def occ (t : String) (calls : List (String × Option String)) : Nat :=
  calls.countP (fun c => c.1 == t)

theorem requireApproval_check (g : GateState) (tool : String)
    (operation : Option String) :
    ((check g tool operation).2).requireApproval = g.requireApproval := by
  simp only [check]
  split
  · rfl
  · split <;> rfl

theorem requireApproval_gateAfter (g : GateState)
    (calls : List (String × Option String)) :
    (gateAfter g calls).requireApproval = g.requireApproval := by
  induction calls generalizing g with
  | nil => rfl
  | cons c rest ih =>
    simp only [gateAfter, List.foldl_cons] at ih ⊢
    rw [ih, requireApproval_check]

theorem counts_check (g : GateState) (tool : String) (operation : Option String) :
    ((check g tool operation).2).counts =
      if (g.counts.lookup tool).getD 0 ≥ maxCallsPerRun then g.counts
      else dictInsert g.counts tool ((g.counts.lookup tool).getD 0 + 1) := by
  simp only [check]
  split
  · simp_all
  · split <;> simp_all

theorem lookup_gateAfter (g : GateState) (calls : List (String × Option String))
    (t : String) (h : (g.counts.lookup t).getD 0 ≤ 20) :
    (((gateAfter g calls).counts.lookup t).getD 0) =
      min ((g.counts.lookup t).getD 0 + occ t calls) 20 := by
  induction calls generalizing g with
  | nil => simp [gateAfter, occ]; omega
  | cons c rest ih =>
    simp only [gateAfter, List.foldl_cons] at ih ⊢
    have hcounts := counts_check g c.1 c.2
    by_cases hct : c.1 = t
    · subst hct
      have hocc : occ c.1 (c :: rest) = occ c.1 rest + 1 := by
        simp [occ, List.countP_cons]
      by_cases hcap : (g.counts.lookup c.1).getD 0 ≥ maxCallsPerRun
      · have hc20 : (g.counts.lookup c.1).getD 0 = 20 := by
          simp [maxCallsPerRun] at hcap; omega
        rw [ih]
        · rw [hcounts, if_pos hcap, hc20, hocc]
          omega
        · rw [hcounts, if_pos hcap]; omega
      · have hlt : (g.counts.lookup c.1).getD 0 < 20 := by
          simp [maxCallsPerRun] at hcap; omega
        have hlk : (((check g c.1 c.2).2).counts.lookup c.1).getD 0 =
            (g.counts.lookup c.1).getD 0 + 1 := by
          rw [hcounts, if_neg hcap, lookup_dictInsert_self]
          rfl
        rw [ih]
        · rw [hlk, hocc]; omega
        · rw [hlk]; omega
    · have hocc : occ t (c :: rest) = occ t rest := by
        have : (c.1 == t) = false := by simpa using hct
        simp [occ, List.countP_cons, this]
      have hlk : (((check g c.1 c.2).2).counts.lookup t).getD 0 =
          (g.counts.lookup t).getD 0 := by
        rw [hcounts]
        split
        · rfl
        · rw [lookup_dictInsert_ne _ _ _ _ (fun he => hct he.symm)]
      rw [ih]
      · rw [hlk, hocc]
      · rw [hlk]; exact h

/-- C4: with approval mode disabled, within one run (i.e. starting from
`reset_run_counts`), a call `check(t, op)` is allowed with reason
`"allowed"` iff fewer than 20 earlier calls in the run named tool `t`;
once 20 or more calls named `t`, every further call on `t` returns
`allowed = false` with the reason reporting the per-run cap of 20.
Hence the first 20 calls on `t` are allowed and every call from the 21st
onward is blocked. -/
theorem c4_per_run_cap (g0 : GateState) (hreq : g0.requireApproval = false)
    (calls : List (String × Option String)) (t : String) (op : Option String) :
    ((check (gateAfter (resetRunCounts g0) calls) t op).1 = (true, "allowed") ↔
        occ t calls < 20) ∧
    (20 ≤ occ t calls →
      (check (gateAfter (resetRunCounts g0) calls) t op).1 = (false, blockedReason t)) := by
  have hra : (gateAfter (resetRunCounts g0) calls).requireApproval = false := by
    rw [requireApproval_gateAfter]; exact hreq
  have hcount :
      (((gateAfter (resetRunCounts g0) calls).counts.lookup t).getD 0) =
        min (occ t calls) 20 := by
    have := lookup_gateAfter (resetRunCounts g0) calls t (by simp [resetRunCounts])
    simpa [resetRunCounts] using this
  by_cases h20 : occ t calls < 20
  · have hres : (check (gateAfter (resetRunCounts g0) calls) t op).1 = (true, "allowed") := by
      simp only [check, hcount]
      rw [if_neg (by simp [maxCallsPerRun]; omega)]
      rw [if_neg (by simp [hra])]
    exact ⟨by simp [hres, h20], fun hge => absurd hge (by omega)⟩
  · have hres : (check (gateAfter (resetRunCounts g0) calls) t op).1 = (false, blockedReason t) := by
      simp only [check, hcount]
      rw [if_pos (by simp [maxCallsPerRun]; omega)]
    constructor
    · rw [hres]
      constructor
      · intro hc; cases hc
      · intro hlt; exact absurd hlt h20
    · intro _; exact hres

/-- C4 witness: after a run of 21 consecutive `check` calls on tool
`"bash"` from a freshly reset gate with approval mode disabled, the next
call is blocked with the cap-exceeded reason. -/
theorem c4_per_run_cap_witness :
    (check (gateAfter (resetRunCounts { requireApproval := false, counts := [] })
        (List.replicate 21 ("bash", none))) "bash" none).1 =
      (false, blockedReason "bash") :=
  (c4_per_run_cap { requireApproval := false, counts := [] } rfl
      (List.replicate 21 ("bash", none)) "bash" none).2 (by decide)

end PolicyGate

/-! ## Working-memory pending actions (`src/core/brain/working_memory.py`) -/

/-- Python `str.strip()`: remove leading and trailing whitespace. -/
def pyStrip (s : List Char) : List Char :=
  ((s.dropWhile Char.isWhitespace).reverse.dropWhile Char.isWhitespace).reverse

namespace WorkingMemory

/-- One entry of the `pending_actions` list; `created_at` (`time.time()`)
is modelled as an integer. -/
structure PendingAction where
  toolName : String
  parameters : List (String × String)
  label : List Char
  proposalText : List Char
  createdAt : Int
  deriving DecidableEq, Repr

/-- `_PENDING_ACTION_TTL = 1800` seconds (30 minutes). -/
def TTL : Int := 1800

/-- The entry built by `add_pending_action`: label stripped and truncated
to 80 chars, proposal text stripped and truncated to 500 chars. -/
def mkPendingAction (toolName : String) (ps : List (String × String))
    (label propText : List Char) (now : Int) : PendingAction :=
  { toolName := toolName
    parameters := ps
    label := (pyStrip label).take 80
    proposalText := (pyStrip propText).take 500
    createdAt := now }

/-- `pending[-3:]` applied when the list exceeds 3 entries. -/
def lastThree (l : List PendingAction) : List PendingAction :=
  if l.length > 3 then l.drop (l.length - 3) else l

/-- `add_pending_action`: drop every pending action from the same tool,
append the new one, keep only the last 3. -/
def addPendingAction (pending : List PendingAction) (toolName : String)
    (ps : List (String × String)) (label propText : List Char) (now : Int) :
    List PendingAction :=
  lastThree (pending.filter (fun p => p.toolName != toolName) ++
    [mkPendingAction toolName ps label propText now])

/-- `get_pending_actions`: return (and persist) only the entries strictly
younger than the 30-minute TTL. -/
def getPendingActions (pending : List PendingAction) (now : Int) :
    List PendingAction :=
  pending.filter (fun p => now - p.createdAt < TTL)

/-- `pop_pending_action`: TTL-filter, then remove and return the first
entry for `toolName` (or the most recent entry when no tool is given).
Returns `(popped, new state)`.  The Python code removes the matched
object by identity (`is not`); `List.erase` removes the first equal
entry, which coincides since the match is the first equal entry.  The
source's early return on an empty list is subsumed: `find?` and
`getLast?` return `none` on `[]`. -/
def popPendingAction (pending : List PendingAction) (toolName : Option String)
    (now : Int) : Option PendingAction × List PendingAction :=
  let live := getPendingActions pending now
  match toolName with
  | some t =>
    match live.find? (fun p => p.toolName == t) with
    | some m => (some m, live.erase m)
    | none => (none, live)
  | none =>
    match live.getLast? with
    | some m => (some m, live.erase m)
    | none => (none, live)

/-- The `pending_actions` mutators of `WorkingMemory`. -/
inductive Op
  | add (toolName : String) (ps : List (String × String))
      (label propText : List Char) (now : Int)
  | get (now : Int)
  | pop (toolName : Option String) (now : Int)
  | popAll
  | clear

/-- Effect of one mutator on the `pending_actions` state
(`pop_all_pending_actions` and `clear_pending_actions` both leave `[]`). -/
def applyOp (pending : List PendingAction) : Op → List PendingAction
  | .add t ps l pt now => addPendingAction pending t ps l pt now
  | .get now => getPendingActions pending now
  | .pop t now => (popPendingAction pending t now).2
  | .popAll => []
  | .clear => []

/-- State after a sequence of mutators starting from the empty list
(missing `working_memory.json` loads the default `[]`). -/
def runOps (ops : List Op) : List PendingAction :=
  ops.foldl applyOp []

/-- The pending-actions invariant: at most 3 entries, at most one entry
per tool name. -/
def Invariant (pending : List PendingAction) : Prop :=
  pending.length ≤ 3 ∧ (pending.map PendingAction.toolName).Nodup

instance (pending : List PendingAction) : Decidable (Invariant pending) := by
  unfold Invariant; infer_instance

theorem invariant_sublist {l₁ l₂ : List PendingAction} (h : List.Sublist l₁ l₂)
    (h₂ : Invariant l₂) : Invariant l₁ :=
  ⟨le_trans h.length_le h₂.1, h₂.2.sublist (h.map PendingAction.toolName)⟩

theorem lastThree_sublist (l : List PendingAction) :
    List.Sublist (lastThree l) l := by
  unfold lastThree
  split
  · exact List.drop_sublist _ l
  · exact List.Sublist.refl l

theorem length_lastThree (l : List PendingAction) : (lastThree l).length ≤ 3 := by
  unfold lastThree
  split
  · rw [List.length_drop]; omega
  · omega

theorem popPendingAction_snd_sublist (pending : List PendingAction)
    (tn : Option String) (now : Int) :
    List.Sublist (popPendingAction pending tn now).2 pending := by
  have hlive : List.Sublist (getPendingActions pending now) pending :=
    List.filter_sublist pending
  simp only [popPendingAction]
  cases tn with
  | none =>
    cases h : (getPendingActions pending now).getLast? with
    | none => simpa [h] using hlive
    | some m =>
      simp only [h]
      exact (List.erase_sublist m _).trans hlive
  | some t =>
    cases h : (getPendingActions pending now).find? (fun p => p.toolName == t) with
    | none => simpa [h] using hlive
    | some m =>
      simp only [h]
      exact (List.erase_sublist m _).trans hlive

theorem invariant_addPendingAction (pending : List PendingAction) (t : String)
    (ps : List (String × String)) (l pt : List Char) (now : Int)
    (h : Invariant pending) : Invariant (addPendingAction pending t ps l pt now) := by
  unfold addPendingAction
  have hkNd : ((pending.filter (fun p => p.toolName != t)).map
      PendingAction.toolName).Nodup :=
    h.2.sublist ((List.filter_sublist pending).map PendingAction.toolName)
  have hnotin : t ∉ (pending.filter (fun p => p.toolName != t)).map
      PendingAction.toolName := by
    intro hmem
    obtain ⟨p, hp, hpt⟩ := List.mem_map.mp hmem
    have h2 : (p.toolName != t) = true := (List.mem_filter.mp hp).2
    rw [hpt] at h2
    simp at h2
  have hnd : ((pending.filter (fun p => p.toolName != t) ++
      [mkPendingAction t ps l pt now]).map PendingAction.toolName).Nodup := by
    rw [List.map_append]
    refine List.Nodup.append hkNd (by simp) ?_
    intro a ha hb
    simp only [List.map_cons, List.map_nil, List.mem_singleton] at hb
    rw [hb] at ha
    exact hnotin ha
  exact ⟨length_lastThree _,
    hnd.sublist ((lastThree_sublist _).map PendingAction.toolName)⟩

theorem invariant_applyOp (pending : List PendingAction) (op : Op)
    (h : Invariant pending) : Invariant (applyOp pending op) := by
  cases op with
  | add t ps l pt now => exact invariant_addPendingAction pending t ps l pt now h
  | get now => exact invariant_sublist (List.filter_sublist pending) h
  | pop t now => exact invariant_sublist (popPendingAction_snd_sublist pending t now) h
  | popAll => exact ⟨by simp [applyOp], by simp [applyOp]⟩
  | clear => exact ⟨by simp [applyOp], by simp [applyOp]⟩

theorem invariant_runOps (ops : List Op) : Invariant (runOps ops) := by
  have main : ∀ (start : List PendingAction), Invariant start →
      Invariant (ops.foldl applyOp start) := by
    induction ops with
    | nil => intro start h; exact h
    | cons op rest ih =>
      intro start h
      rw [List.foldl_cons]
      exact ih _ (invariant_applyOp start op h)
  exact main [] ⟨by simp, by simp⟩

theorem fresh_getPendingActions (pending : List PendingAction) (now : Int)
    (p : PendingAction) (hp : p ∈ getPendingActions pending now) :
    now - p.createdAt < TTL := by
  have h2 := List.of_mem_filter hp
  simpa using h2

theorem mem_of_getLastEq {α : Type} (l : List α) (a : α)
    (h : l.getLast? = some a) : a ∈ l := by
  cases l with
  | nil => simp at h
  | cons x xs =>
    rw [List.getLast?_eq_getLast _ (by simp)] at h
    cases h
    exact List.getLast_mem _

theorem fresh_popPendingAction (pending : List PendingAction)
    (tn : Option String) (now : Int) (p : PendingAction)
    (hp : (popPendingAction pending tn now).1 = some p) :
    now - p.createdAt < TTL := by
  have hmem : p ∈ getPendingActions pending now := by
    cases tn with
    | none =>
      simp only [popPendingAction] at hp
      cases hf : (getPendingActions pending now).getLast? with
      | none => rw [hf] at hp; simp at hp
      | some m =>
        rw [hf] at hp
        simp only [Option.some.injEq] at hp
        rw [← hp]
        exact mem_of_getLastEq _ m hf
    | some t =>
      simp only [popPendingAction] at hp
      cases hf : (getPendingActions pending now).find? (fun p => p.toolName == t) with
      | none => rw [hf] at hp; simp at hp
      | some m =>
        rw [hf] at hp
        simp only [Option.some.injEq] at hp
        rw [← hp]
        exact List.mem_of_find?_eq_some hf
  exact fresh_getPendingActions pending now p hmem

theorem filter_addPendingAction_self (pending : List PendingAction) (t : String)
    (ps : List (String × String)) (l pt : List Char) (now : Int) :
    (addPendingAction pending t ps l pt now).filter (fun p => p.toolName == t) =
      [mkPendingAction t ps l pt now] := by
  unfold addPendingAction lastThree
  have hkeptNone : ∀ n, ((pending.filter (fun p => p.toolName != t)).drop n).filter
      (fun p => p.toolName == t) = [] := by
    intro n
    apply List.filter_eq_nil_iff.mpr
    intro p hp
    have hpk : p ∈ pending.filter (fun p => p.toolName != t) :=
      (List.drop_sublist n _).mem hp
    have h2 : (p.toolName != t) = true := (List.mem_filter.mp hpk).2
    simpa using h2
  have hmk : ((mkPendingAction t ps l pt now).toolName == t) = true := by
    simp [mkPendingAction]
  split
  · rw [List.drop_append_of_le_length
      (by simp only [List.length_append, List.length_cons, List.length_nil]; omega),
      List.filter_append, hkeptNone]
    simp [hmk]
  · rw [List.filter_append]
    have := hkeptNone 0
    rw [List.drop_zero] at this
    rw [this]
    simp [hmk]

/-- C5: (i) starting from the default empty state, every sequence of
pending-action operations leaves at most 3 entries with at most one entry
per tool name; (ii) every entry returned by `get_pending_actions` is
younger than the 30-minute TTL, (iii) as is any entry returned by
`pop_pending_action`; (iv) adding two pending actions for the same tool
leaves exactly one entry for that tool, namely the later one. -/
theorem c5_pending_actions :
    (∀ ops : List Op, Invariant (runOps ops)) ∧
    (∀ (pending : List PendingAction) (now : Int) (p : PendingAction),
      p ∈ getPendingActions pending now → now - p.createdAt < TTL) ∧
    (∀ (pending : List PendingAction) (tn : Option String) (now : Int)
      (p : PendingAction),
      (popPendingAction pending tn now).1 = some p → now - p.createdAt < TTL) ∧
    (∀ (pending : List PendingAction) (t : String)
      (ps₁ : List (String × String)) (l₁ pt₁ : List Char) (n₁ : Int)
      (ps₂ : List (String × String)) (l₂ pt₂ : List Char) (n₂ : Int),
      (addPendingAction (addPendingAction pending t ps₁ l₁ pt₁ n₁)
          t ps₂ l₂ pt₂ n₂).filter (fun p => p.toolName == t) =
        [mkPendingAction t ps₂ l₂ pt₂ n₂]) :=
  ⟨invariant_runOps,
   fresh_getPendingActions,
   fresh_popPendingAction,
   fun _ t _ _ _ _ ps₂ l₂ pt₂ n₂ =>
     filter_addPendingAction_self _ t ps₂ l₂ pt₂ n₂⟩

/-- C5 witness: the invariant, the TTL bound on a returned entry, and the
double-add law, all evaluated at concrete inputs. -/
theorem c5_pending_actions_witness :
    Invariant (runOps [Op.add "x_tool" [] [] [] 0, Op.add "email" [] [] [] 1]) ∧
    ((0 : Int) - 0 < TTL) ∧
    (addPendingAction (addPendingAction [] "x_tool" [] [] [] 0)
        "x_tool" [] [] [] 1).filter (fun p => p.toolName == "x_tool") =
      [mkPendingAction "x_tool" [] [] [] 1] :=
  ⟨c5_pending_actions.1 _,
   c5_pending_actions.2.1 [mkPendingAction "x_tool" [] [] [] 0] 0
     (mkPendingAction "x_tool" [] [] [] 0) (by decide),
   c5_pending_actions.2.2.2 [] "x_tool" [] [] [] 0 [] [] [] 1⟩

end WorkingMemory

/-! ## Digital clone brain (`src/core/brain/digital_clone_brain.py`) -/

/-- Apply a Python `{**base, **extra}`-style merge: bind every pair of
`extra` over `base`, later keys shadowing earlier ones. -/
def mergeDict (base extra : List (String × String)) : List (String × String) :=
  extra.foldl (fun d p => dictInsert d p.1 p.2) base

namespace Brain

/-- `CHANNEL_TO_CONTEXT`: the fixed channel set; each key maps to itself. -/
def channelToContext : List (String × String) :=
  [("telegram", "telegram"), ("email", "email"), ("whatsapp", "whatsapp"),
   ("x", "x"), ("linkedin", "linkedin"), ("slack", "slack"),
   ("discord", "discord"), ("calendar", "calendar"), ("web", "web")]

/-- The fixed channel names (the keys of `CHANNEL_TO_CONTEXT`). -/
def fixedChannels : List String :=
  channelToContext.map Prod.fst

/-- `CHANNEL_TO_CONTEXT.get(name, name)`: map a channel/talent name to its
context name, defaulting to the name itself. -/
def contextName (name : String) : String :=
  (channelToContext.lookup name).getD name

/-- Python truthiness of an optional string (`if talent:` / `if channel:`). -/
def truthy : Option String → Bool
  | some s => s != ""
  | none => false

/-- `DigitalCloneBrain._resolve_talent`: prefer the explicit talent, then
the channel, each mapped through `CHANNEL_TO_CONTEXT` with the name
itself as default; `None` when neither is truthy. -/
def resolveTalent (channel talent : Option String) : Option String :=
  if truthy talent then talent.map contextName
  else if truthy channel then channel.map contextName
  else none

/-- Every entry of `CHANNEL_TO_CONTEXT` maps a key to itself, so the
channel-to-context mapping is the identity on every name. -/
theorem contextName_eq (s : String) : contextName s = s := by
  have main : ∀ (l : List (String × String)), (∀ p ∈ l, p.1 = p.2) →
      (l.lookup s).getD s = s := by
    intro l
    induction l with
    | nil => intro _; rfl
    | cons p rest ih =>
      intro h
      rw [List.lookup]
      cases hb : (s == p.1) with
      | true =>
        have hs : s = p.1 := eq_of_beq hb
        have hp : p.1 = p.2 := h p (by simp)
        simp [← hp, hs]
      | false => exact ih (fun q hq => h q (List.mem_cons_of_mem p hq))
  apply main
  intro p hp
  fin_cases hp <;> rfl

/-- One stored vector-database record: the document text plus its
metadata dict (all values stringly, as serialized by the source). -/
structure Record where
  text : String
  meta : List (String × String)
  deriving DecidableEq, Repr

/-- The brain's stores: three collective collections, the per-talent
isolated contexts (a dict of stores, absent = empty since contexts are
lazily created empty), and the legacy unified memory. -/
structure BrainState where
  identity : List Record
  preferences : List Record
  contacts : List Record
  contexts : List (String × List Record)
  memory : List Record
  deriving DecidableEq, Repr

/-- A brain with no stored data. -/
def emptyBrain : BrainState :=
  { identity := [], preferences := [], contacts := [], contexts := [], memory := [] }

/-- The isolated context store that `_get_context(talent)` reads/writes:
keyed by `CHANNEL_TO_CONTEXT.get(talent, talent)`; a context never
touched before is empty. -/
def storeOf (st : BrainState) (talent : String) : List Record :=
  (st.contexts.lookup (contextName talent)).getD []

/-- Python `talent or "unknown"`. -/
def talentOrUnknown : Option String → String
  | some t => if t != "" then t else "unknown"
  | none => "unknown"

/-- The `store_metadata` dict built by `store_conversation_turn` (the
caller-supplied metadata is unpacked last, so it shadows the base keys). -/
def turnMetadata (userMsg resp model ts : String) (talent : Option String)
    (metadata : List (String × String)) : List (String × String) :=
  mergeDict
    [("type", "conversation"), ("model_used", model), ("timestamp", ts),
     ("user_message", userMsg), ("assistant_response", resp),
     ("talent", talentOrUnknown talent)]
    metadata

/-- The conversation record written by `store_conversation_turn`:
`"User: {user_message}\nAssistant ({model_used}): {assistant_response}"`
plus the merged metadata. -/
def turnRecord (userMsg resp model ts : String) (talent : Option String)
    (metadata : List (String × String)) : Record :=
  { text := "User: " ++ userMsg ++ "\nAssistant (" ++ model ++ "): " ++ resp
    meta := turnMetadata userMsg resp model ts talent metadata }

/-- `DigitalCloneBrain.store_conversation_turn`: resolve the talent from
`metadata["channel"]` (default `"unknown"`); append the turn record to
that talent's isolated context, or to the legacy unified memory when no
talent resolves. -/
def storeConversationTurn (st : BrainState) (userMsg resp model : String)
    (metadata : List (String × String)) (ts : String) : BrainState :=
  let channel := (metadata.lookup "channel").getD "unknown"
  let talent := resolveTalent (some channel) none
  let record := turnRecord userMsg resp model ts talent metadata
  match talent with
  | some t =>
    { st with contexts :=
        dictInsert st.contexts (contextName t) (storeOf st t ++ [record]) }
  | none => { st with memory := st.memory ++ [record] }

/-- A search backend: given query, result cap, metadata filter and a
store's records, return some records.  ChromaDB is external to the repo;
the theorems only assume that a search over a store returns records of
that store. -/
abbrev SearchFn := String → Nat → List (String × String) → List Record → List Record

/-- A concrete search backend used in witnesses: the first `n` records. -/
def takeSearch : SearchFn := fun _ n _ db => db.take n

/-- The records drawn by `DigitalCloneBrain.get_relevant_context` before
string formatting: top-3 of identity, top-3 of preferences, top-2 of
contacts (the three collective stores, always), and top-`maxResults` of
the resolved talent's isolated context — or of the legacy unified memory
when no talent resolves.  No other store is consulted. -/
def relevantContextRecords (search : SearchFn) (st : BrainState) (task : String)
    (maxResults : Nat) (talent channel : Option String) : List Record :=
  search task 3 [] st.identity ++
  search task 3 [] st.preferences ++
  search task 2 [] st.contacts ++
  (match resolveTalent channel talent with
   | some t => search task maxResults [] (storeOf st t)
   | none => search task maxResults [] st.memory)

/-- The records drawn by `DigitalCloneBrain.get_recent_conversation`: a
filtered search (`type = "conversation"`) over the resolved talent's
isolated context only, or over the legacy memory when no talent
resolves. -/
def recentConversationRecords (search : SearchFn) (st : BrainState)
    (limit : Nat) (talent channel : Option String) : List Record :=
  match resolveTalent channel talent with
  | some t => search "conversation" limit [("type", "conversation")] (storeOf st t)
  | none => search "conversation" limit [("type", "conversation")] st.memory

theorem resolveTalent_channel (c : String) (hc : c ≠ "") :
    resolveTalent (some c) none = some c := by
  simp [resolveTalent, truthy, contextName_eq, hc]

theorem storeConversationTurn_channel (st : BrainState)
    (userMsg resp model : String) (metadata : List (String × String))
    (ts : String) (c : String) (hc : metadata.lookup "channel" = some c)
    (hne : c ≠ "") :
    storeConversationTurn st userMsg resp model metadata ts =
      { st with contexts :=
          (dictInsert st.contexts c
            (storeOf st c ++ [turnRecord userMsg resp model ts (some c) metadata])) } := by
  unfold storeConversationTurn
  rw [hc]
  simp only [Option.getD_some, resolveTalent_channel c hne, contextName_eq]

theorem storeOf_after_store_ne (st : BrainState) (userMsg resp model : String)
    (metadata : List (String × String)) (ts : String) (c c' : String)
    (hc : metadata.lookup "channel" = some c) (hne : c ≠ "") (hcc : c' ≠ c) :
    storeOf (storeConversationTurn st userMsg resp model metadata ts) c' =
      storeOf st c' := by
  rw [storeConversationTurn_channel st userMsg resp model metadata ts c hc hne]
  unfold storeOf
  rw [contextName_eq]
  rw [lookup_dictInsert_ne _ _ _ _ hcc]

/-- C1: channel isolation of the memory layer.  A conversation turn stored
with `metadata["channel"] = c` is appended to channel `c`'s isolated
store; a retrieval resolving to a different channel `c'` draws only from
the three collective stores and `c'`'s isolated store, so — provided the
turn's record was not already present in those stores — neither
`get_relevant_context` nor `get_recent_conversation` under `c'` returns
it.  `search` is any backend that only returns records of the store it
searches. -/
theorem c1_channel_isolation (search : SearchFn)
    (hsearch : ∀ q n f db r, r ∈ search q n f db → r ∈ db)
    (st : BrainState) (userMsg resp model : String)
    (metadata : List (String × String)) (ts : String) (c c' : String)
    (task : String) (k limit : Nat)
    (hc : metadata.lookup "channel" = some c) (hcne : c ≠ "") (hc'ne : c' ≠ "")
    (hne : c' ≠ c)
    (hfresh : turnRecord userMsg resp model ts (some c) metadata ∉ st.identity ∧
      turnRecord userMsg resp model ts (some c) metadata ∉ st.preferences ∧
      turnRecord userMsg resp model ts (some c) metadata ∉ st.contacts ∧
      turnRecord userMsg resp model ts (some c) metadata ∉ storeOf st c') :
    turnRecord userMsg resp model ts (some c) metadata ∉
      relevantContextRecords search
        (storeConversationTurn st userMsg resp model metadata ts) task k none (some c') ∧
    turnRecord userMsg resp model ts (some c) metadata ∉
      recentConversationRecords search
        (storeConversationTurn st userMsg resp model metadata ts) limit none (some c') := by
  set r := turnRecord userMsg resp model ts (some c) metadata with hr
  set st' := storeConversationTurn st userMsg resp model metadata ts with hst'
  have hid : st'.identity = st.identity := by
    rw [hst', storeConversationTurn_channel st userMsg resp model metadata ts c hc hcne]
  have hpref : st'.preferences = st.preferences := by
    rw [hst', storeConversationTurn_channel st userMsg resp model metadata ts c hc hcne]
  have hcont : st'.contacts = st.contacts := by
    rw [hst', storeConversationTurn_channel st userMsg resp model metadata ts c hc hcne]
  have hstore : storeOf st' c' = storeOf st c' := by
    rw [hst']
    exact storeOf_after_store_ne st userMsg resp model metadata ts c c' hc hcne hne
  constructor
  · intro hmem
    unfold relevantContextRecords at hmem
    rw [resolveTalent_channel c' hc'ne] at hmem
    rcases List.mem_append.mp hmem with hmem | hmem4
    · rcases List.mem_append.mp hmem with hmem | hmem3
      · rcases List.mem_append.mp hmem with hmem1 | hmem2
        · exact hfresh.1 (hid ▸ hsearch _ _ _ _ _ hmem1)
        · exact hfresh.2.1 (hpref ▸ hsearch _ _ _ _ _ hmem2)
      · exact hfresh.2.2.1 (hcont ▸ hsearch _ _ _ _ _ hmem3)
    · exact hfresh.2.2.2 (hstore ▸ hsearch _ _ _ _ _ hmem4)
  · intro hmem
    unfold recentConversationRecords at hmem
    rw [resolveTalent_channel c' hc'ne] at hmem
    exact hfresh.2.2.2 (hstore ▸ hsearch _ _ _ _ _ hmem)

/-- C1 witness: a turn stored on channel `"email"` is not retrieved on
channel `"x"`, for the take-first-n search backend on a tiny brain. -/
theorem c1_channel_isolation_witness :
    turnRecord "hi" "hello" "claude" "t0" (some "email") [("channel", "email")] ∉
      relevantContextRecords takeSearch
        (storeConversationTurn emptyBrain "hi" "hello" "claude"
          [("channel", "email")] "t0") "task" 5 none (some "x") ∧
    turnRecord "hi" "hello" "claude" "t0" (some "email") [("channel", "email")] ∉
      recentConversationRecords takeSearch
        (storeConversationTurn emptyBrain "hi" "hello" "claude"
          [("channel", "email")] "t0") 5 none (some "x") :=
  c1_channel_isolation takeSearch
    (fun _ n _ db r hr => List.take_subset n db hr)
    emptyBrain "hi" "hello" "claude" [("channel", "email")] "t0" "email" "x"
    "task" 5 5 (by decide) (by decide) (by decide) (by decide)
    (by decide)

/-- `_auto_restore_from_backup` trigger condition: no-op without a backup
file; skip when the identity and preferences collections both have data —
the contacts count is computed and logged but not consulted; otherwise
replay the JSONL backup. -/
def shouldRestore (backupExists : Bool) (identityCount prefsCount contactsCount : Nat) :
    Bool :=
  backupExists && !(decide (identityCount > 0) && decide (prefsCount > 0))

/-- C6 counterexample: with a backup file present, identity and
preferences non-empty but contacts empty, the restore is skipped, though
the claim requires a replay whenever any of the three collections is
empty. -/
theorem c6_counterexample : shouldRestore true 1 1 0 = false := by decide

/-- C6 (amended): at startup the JSONL backup is replayed iff the backup
file exists and the identity collection or the preferences collection is
empty; the contacts collection is not consulted, so the replay is skipped
whenever identity and preferences are both non-empty, even with contacts
empty. -/
theorem c6_restore_trigger (b : Bool) (i p c : Nat) :
    shouldRestore b i p c = true ↔ b = true ∧ (i = 0 ∨ p = 0) := by
  unfold shouldRestore
  cases b <;> simp

/-- C7 counterexample: storing a turn for the unknown channel `"signal"`
creates and writes an isolated store named `"signal"`; no store named
`"general"` is created and the legacy memory is untouched, contradicting
the claim that unknown channels read and write a `"general"` store. -/
theorem c7_counterexample :
    ((storeConversationTurn emptyBrain "hi" "hello" "claude"
        [("channel", "signal")] "t0").contexts.lookup "signal" =
      some [turnRecord "hi" "hello" "claude" "t0" (some "signal")
        [("channel", "signal")]]) ∧
    ((storeConversationTurn emptyBrain "hi" "hello" "claude"
        [("channel", "signal")] "t0").contexts.lookup "general" = none) ∧
    ((storeConversationTurn emptyBrain "hi" "hello" "claude"
        [("channel", "signal")] "t0").memory = []) := by
  refine ⟨?_, ?_, ?_⟩ <;> decide

/-- C7 (amended): a channel outside the fixed set resolves to itself, so
storing a conversation turn for it appends to an isolated store named
after the channel, and context retrieval for it reads that same store —
not a shared `"general"` store.  (Only a missing or empty channel falls
back to the legacy unified memory.) -/
theorem c7_unknown_channel_own_store (search : SearchFn) (st : BrainState)
    (userMsg resp model task : String) (metadata : List (String × String))
    (ts : String) (k : Nat) (ch : String)
    (hch : ch ∉ fixedChannels) (hne : ch ≠ "")
    (hc : metadata.lookup "channel" = some ch) :
    resolveTalent (some ch) none = some ch ∧
    (storeConversationTurn st userMsg resp model metadata ts).contexts.lookup ch =
      some (storeOf st ch ++ [turnRecord userMsg resp model ts (some ch) metadata]) ∧
    relevantContextRecords search st task k none (some ch) =
      search task 3 [] st.identity ++ search task 3 [] st.preferences ++
      search task 2 [] st.contacts ++ search task k [] (storeOf st ch) := by
  refine ⟨resolveTalent_channel ch hne, ?_, ?_⟩
  · rw [storeConversationTurn_channel st userMsg resp model metadata ts ch hc hne]
    exact lookup_dictInsert_self ..
  · unfold relevantContextRecords
    rw [resolveTalent_channel ch hne]

/-- C7 witness: the amended statement evaluated for the concrete unknown
channel `"signal"` on the empty brain. -/
theorem c7_unknown_channel_own_store_witness :
    resolveTalent (some "signal") none = some "signal" ∧
    (storeConversationTurn emptyBrain "hi" "hello" "claude"
        [("channel", "signal")] "t0").contexts.lookup "signal" =
      some (storeOf emptyBrain "signal" ++
        [turnRecord "hi" "hello" "claude" "t0" (some "signal")
          [("channel", "signal")]]) ∧
    relevantContextRecords takeSearch emptyBrain "task" 5
        none (some "signal") =
      takeSearch "task" 3 [] emptyBrain.identity ++
      takeSearch "task" 3 [] emptyBrain.preferences ++
      takeSearch "task" 2 [] emptyBrain.contacts ++
      takeSearch "task" 5 [] (storeOf emptyBrain "signal") :=
  c7_unknown_channel_own_store takeSearch emptyBrain
    "hi" "hello" "claude" "task" [("channel", "signal")] "t0" 5 "signal"
    (by decide) (by decide) (by decide)

end Brain

/-! ## Context thalamus budgets (`src/core/context_thalamus.py`) -/

namespace ContextThalamus

/-- `BUDGET_BRAIN_CONTEXT = 1600` characters. -/
def BUDGET_BRAIN_CONTEXT : Nat := 1600

/-- `BUDGET_PRINCIPLES = 1200` characters. -/
def BUDGET_PRINCIPLES : Nat := 1200

/-- The appended truncation marker `"\n[...truncated]"` (15 characters). -/
def truncMarker : List Char := "\n[...truncated]".toList

/-- Python `str.rfind(c)`: the greatest index holding `c`, or `-1`. -/
def pyRfind (s : List Char) (c : Char) : Int :=
  match s.reverse.findIdx? (fun x => x == c) with
  | some i => (s.length : Int) - 1 - (i : Int)
  | none => -1

/-- `ContextThalamus.budget_brain_context`: within budget, return the
input unchanged; otherwise truncate to `1600 - 20` characters, cut back
to the last newline when one occurs at a positive index, and append the
truncation marker. -/
def budget_brain_context (context : List Char) : List Char :=
  if context.length ≤ BUDGET_BRAIN_CONTEXT then context
  else if pyRfind (context.take (BUDGET_BRAIN_CONTEXT - 20)) '\n' > 0 then
    (context.take (BUDGET_BRAIN_CONTEXT - 20)).take
        (pyRfind (context.take (BUDGET_BRAIN_CONTEXT - 20)) '\n').toNat ++
      truncMarker
  else
    context.take (BUDGET_BRAIN_CONTEXT - 20) ++ truncMarker

/-- `ContextThalamus.budget_principles`: within budget, return the input
unchanged; otherwise truncate to `1200 - 20` characters and append the
truncation marker. -/
def budget_principles (principles : List Char) : List Char :=
  if principles.length ≤ BUDGET_PRINCIPLES then principles
  else principles.take (BUDGET_PRINCIPLES - 20) ++ truncMarker

/-- C8: for every input string, `budget_brain_context` returns at most
1600 characters and `budget_principles` at most 1200; an input already
within its budget is returned unchanged. -/
theorem c8_budgets (s : List Char) :
    (budget_brain_context s).length ≤ 1600 ∧
    (budget_principles s).length ≤ 1200 ∧
    (s.length ≤ 1600 → budget_brain_context s = s) ∧
    (s.length ≤ 1200 → budget_principles s = s) := by
  have hm : truncMarker.length = 15 := by decide
  refine ⟨?_, ?_, ?_, ?_⟩
  · unfold budget_brain_context
    split
    · next h => exact h
    · split <;>
      · simp only [List.length_append, List.length_take, hm, BUDGET_BRAIN_CONTEXT]
        omega
  · unfold budget_principles
    split
    · next h => exact h
    · simp only [List.length_append, List.length_take, hm, BUDGET_PRINCIPLES]
      omega
  · intro h
    unfold budget_brain_context
    rw [if_pos (by exact h)]
  · intro h
    unfold budget_principles
    rw [if_pos (by exact h)]

/-- C8 witness: the budgets and the identity-on-short-input clause at a
concrete three-character input. -/
theorem c8_budgets_witness :
    (budget_brain_context "abc".toList).length ≤ 1600 ∧
    (budget_principles "abc".toList).length ≤ 1200 ∧
    budget_brain_context "abc".toList = "abc".toList ∧
    budget_principles "abc".toList = "abc".toList :=
  ⟨(c8_budgets "abc".toList).1, (c8_budgets "abc".toList).2.1,
   (c8_budgets "abc".toList).2.2.1 (by decide),
   (c8_budgets "abc".toList).2.2.2 (by decide)⟩

end ContextThalamus

/-! ## Dead-letter queue (`src/core/nervous_system/dead_letter_queue.py`) -/

namespace DLQ

/-- `MAX_DLQ_SIZE = 100`. -/
def MAX_DLQ_SIZE : Nat := 100

/-- `max_retries = 3`: failures before moving to the DLQ. -/
def maxRetries : Nat := 3

/-- One persisted DLQ item. -/
structure Item where
  key : String
  error : String
  context : List (String × String)
  failureCount : Nat
  deadLetteredAt : Int
  deriving DecidableEq, Repr

/-- State of a `DeadLetterQueue`: the in-memory per-key consecutive
failure counts and the persisted item list. -/
structure DLQState where
  failureCounts : List (String × Nat)
  items : List Item
  deriving Repr

/-- `DeadLetterQueue._add_to_dlq`: append the item, then trim to the last
`MAX_DLQ_SIZE` items (`items[-100:]`, dropping the oldest first). -/
def addToDlq (items : List Item) (item : Item) : List Item :=
  if (items ++ [item]).length > MAX_DLQ_SIZE then
    (items ++ [item]).drop ((items ++ [item]).length - MAX_DLQ_SIZE)
  else
    items ++ [item]

/-- `DeadLetterQueue.record_failure`: bump the key's count (written
inline below); on reaching `max_retries` append to the DLQ, delete the
key's counter and signal dead-lettered (the insert-then-delete of the
source nets to a delete).  Returns `(deadLettered, new state)`. -/
def recordFailure (st : DLQState) (key err : String)
    (ctx : List (String × String)) (now : Int) : Bool × DLQState :=
  if (st.failureCounts.lookup key).getD 0 + 1 ≥ maxRetries then
    (true,
     { failureCounts := st.failureCounts.filter (fun p => p.1 != key)
       items := addToDlq st.items
         { key := key, error := err, context := ctx,
           failureCount := (st.failureCounts.lookup key).getD 0 + 1,
           deadLetteredAt := now } })
  else
    (false, { st with failureCounts :=
        (dictInsert st.failureCounts key ((st.failureCounts.lookup key).getD 0 + 1)) })

/-- `DeadLetterQueue.record_success`: drop the key's failure counter. -/
def recordSuccess (st : DLQState) (key : String) : DLQState :=
  { st with failureCounts := st.failureCounts.filter (fun p => p.1 != key) }

theorem length_addToDlq (items : List Item) (item : Item) :
    (addToDlq items item).length ≤ MAX_DLQ_SIZE := by
  unfold addToDlq MAX_DLQ_SIZE
  split
  · rw [List.length_drop]
    omega
  · omega

theorem getLast_addToDlq (items : List Item) (item : Item) :
    (addToDlq items item).getLast? = some item := by
  unfold addToDlq
  have hlen : (items ++ [item]).length - MAX_DLQ_SIZE ≤ items.length := by
    simp only [List.length_append, List.length_cons, List.length_nil, MAX_DLQ_SIZE]
    omega
  split
  · rw [List.drop_append_of_le_length hlen]
    rw [List.getLast?_concat]
  · rw [List.getLast?_concat]

theorem suffix_addToDlq (items : List Item) (item : Item) :
    List.IsSuffix (addToDlq items item) (items ++ [item]) := by
  unfold addToDlq
  split
  · exact List.drop_suffix _ _
  · exact List.suffix_refl _

/-- C9: starting with no failure counter for `key`, the first and second
`record_failure` return `false`; the third returns the dead-lettered
signal `true`, appends the item (failure count 3) as the newest element
of the persisted queue — which is a suffix of the previous queue plus the
new item, so only oldest entries are dropped — and clears the key's
counter; the persisted queue never exceeds 100 items; and
`record_success` clears the key's counter. -/
theorem c9_dead_letter (st : DLQState) (key e₁ e₂ e₃ : String)
    (c₁ c₂ c₃ : List (String × String)) (t₁ t₂ t₃ : Int)
    (h : st.failureCounts.lookup key = none) :
    (recordFailure st key e₁ c₁ t₁).1 = false ∧
    (recordFailure (recordFailure st key e₁ c₁ t₁).2 key e₂ c₂ t₂).1 = false ∧
    (recordFailure (recordFailure (recordFailure st key e₁ c₁ t₁).2
        key e₂ c₂ t₂).2 key e₃ c₃ t₃).1 = true ∧
    (recordFailure (recordFailure (recordFailure st key e₁ c₁ t₁).2
        key e₂ c₂ t₂).2 key e₃ c₃ t₃).2.items =
      addToDlq (recordFailure (recordFailure st key e₁ c₁ t₁).2
        key e₂ c₂ t₂).2.items
        { key := key, error := e₃, context := c₃, failureCount := 3,
          deadLetteredAt := t₃ } ∧
    (recordFailure (recordFailure (recordFailure st key e₁ c₁ t₁).2
        key e₂ c₂ t₂).2 key e₃ c₃ t₃).2.failureCounts.lookup key = none ∧
    (∀ (items : List Item) (item : Item),
      (addToDlq items item).length ≤ 100 ∧
      (addToDlq items item).getLast? = some item ∧
      List.IsSuffix (addToDlq items item) (items ++ [item])) ∧
    (∀ (st' : DLQState) (k : String),
      (recordSuccess st' k).failureCounts.lookup k = none) := by
  have e1 : recordFailure st key e₁ c₁ t₁ =
      (false, { st with failureCounts := (dictInsert st.failureCounts key 1) }) := by
    simp [recordFailure, h, maxRetries]
  have e2 : recordFailure (recordFailure st key e₁ c₁ t₁).2 key e₂ c₂ t₂ =
      (false, { st with failureCounts :=
          (dictInsert (dictInsert st.failureCounts key 1) key 2) }) := by
    rw [e1]
    simp [recordFailure, lookup_dictInsert_self, maxRetries]
  have e3 : recordFailure (recordFailure (recordFailure st key e₁ c₁ t₁).2
      key e₂ c₂ t₂).2 key e₃ c₃ t₃ =
      (true,
       { failureCounts :=
           ((dictInsert (dictInsert st.failureCounts key 1) key 2).filter
             (fun p => p.1 != key))
         items :=
           (addToDlq st.items ⟨key, e₃, c₃, 3, t₃⟩) }) := by
    rw [e2]
    simp [recordFailure, lookup_dictInsert_self, maxRetries]
  refine ⟨by rw [e1], by rw [e2], by rw [e3], ?_, ?_, ?_, ?_⟩
  · rw [e3, e2]
  · rw [e3]
    exact lookup_filter_self _ key
  · intro items item
    exact ⟨length_addToDlq items item, getLast_addToDlq items item,
      suffix_addToDlq items item⟩
  · intro st' k
    exact lookup_filter_self _ k

/-- C9 witness: the three-failure sequence for a concrete key on the
empty state. -/
theorem c9_dead_letter_witness :
    (recordFailure { failureCounts := [], items := [] } "tool:email" "err1" [] 0).1 =
      false ∧
    (recordFailure (recordFailure (recordFailure
        { failureCounts := [], items := [] } "tool:email" "err1" [] 0).2
        "tool:email" "err2" [] 1).2 "tool:email" "err3" [] 2).1 = true :=
  ⟨(c9_dead_letter { failureCounts := [], items := [] } "tool:email"
      "err1" "err2" "err3" [] [] [] 0 1 2 (by decide)).1,
   (c9_dead_letter { failureCounts := [], items := [] } "tool:email"
      "err1" "err2" "err3" [] [] [] 0 1 2 (by decide)).2.2.1⟩

end DLQ

/-! ## Reminder creation (`src/core/tools/reminder.py`) -/

namespace Reminder

/-- Reminder status strings. -/
inductive RStatus
  | pending
  | fired
  | cancelled
  deriving DecidableEq, Repr

/-- One entry of `data/reminders.json`. -/
structure Rem where
  id : List Char
  message : String
  remindAt : Int
  createdAt : Int
  status : RStatus
  deriving DecidableEq, Repr

/-- Modelled from the spec: the uniform tool envelope
`{success, output?, error?, metadata?}` (its class lives in
`src/core/types.py`, which is absent from the corpus; only the `success`
flag matters for the properties proved here). -/
structure ToolResult where
  success : Bool
  output : Option String := none
  error : Option String := none
  deriving DecidableEq, Repr

/-- `ReminderTool._set_reminder`.  The datetime parsing pipeline
(relative `30m/2h/1d` format, `strptime`, `fromisoformat`) is standard
library behavior and is represented by its outcome `parsed` (`none` when
`remind_at` fails all three parsers, `some t` when it parses to time
`t`); times are integers.  `remindAtGiven` is the truthiness of the
`remind_at` argument, `uuidHex` models `uuid.uuid4().hex` (32 hex chars);
the reminder id is its first 8 characters.  Interpolated detail in the
error strings is dropped.  Returns the envelope and the saved reminders
list. -/
def setReminder (message : Option String) (remindAtGiven : Bool)
    (parsed : Option Int) (now : Int) (uuidHex : List Char)
    (reminders : List Rem) : ToolResult × List Rem :=
  match message with
  | none => ({ success := false, error := some "Reminder message is required" }, reminders)
  | some msg =>
    if msg = "" then
      ({ success := false, error := some "Reminder message is required" }, reminders)
    else match remindAtGiven with
    | false => ({ success := false, error := some "remind_at is required" }, reminders)
    | true =>
      match parsed with
      | none => ({ success := false, error := some "Invalid time format" }, reminders)
      | some t =>
        if t < now then
          ({ success := false, error := some "Cannot set reminder in the past" },
           reminders)
        else
          ({ success := true, output := some "Reminder set" },
           reminders ++ [⟨uuidHex.take 8, msg, t, now, RStatus.pending⟩])

/-- C10: a `set_reminder` whose `remind_at` parses to a time strictly
before `now` returns `success = false` and leaves the reminders list
unchanged (this also holds for every other failure: missing message,
missing `remind_at`, unparseable time); a valid future `remind_at` with a
non-empty message appends exactly one reminder whose id is the first 8
characters of the uuid hex (hence 8 characters long) with status
pending. -/
theorem c10_set_reminder (message : Option String) (rg : Bool)
    (parsed : Option Int) (t now : Int) (hex : List Char) (reminders : List Rem) :
    ((setReminder message rg parsed now hex reminders).1.success = false →
      (setReminder message rg parsed now hex reminders).2 = reminders) ∧
    (parsed = some t → t < now →
      (setReminder message rg parsed now hex reminders).1.success = false ∧
      (setReminder message rg parsed now hex reminders).2 = reminders) ∧
    (∀ msg, message = some msg → msg ≠ "" → rg = true → parsed = some t →
      ¬ t < now → 8 ≤ hex.length →
      (setReminder message rg parsed now hex reminders).1.success = true ∧
      (setReminder message rg parsed now hex reminders).2 =
        reminders ++ [⟨hex.take 8, msg, t, now, RStatus.pending⟩] ∧
      (hex.take 8).length = 8) := by
  refine ⟨?_, ?_, ?_⟩
  · intro hfail
    cases message with
    | none => rfl
    | some msg =>
      by_cases hmsg : msg = ""
      · simp [setReminder, hmsg]
      · cases rg with
        | false => simp [setReminder, hmsg]
        | true =>
          cases parsed with
          | none => simp [setReminder, hmsg]
          | some u =>
            by_cases hu : u < now
            · simp [setReminder, hmsg, hu]
            · exfalso
              simp [setReminder, hmsg, hu] at hfail
  · intro hp ht
    subst hp
    cases message with
    | none => exact ⟨rfl, rfl⟩
    | some msg =>
      by_cases hmsg : msg = ""
      · constructor <;> simp [setReminder, hmsg]
      · cases rg with
        | false => constructor <;> simp [setReminder, hmsg]
        | true => constructor <;> simp [setReminder, hmsg, ht]
  · intro msg hm hmsg hrg hp hfut hlen
    subst hm hrg hp
    refine ⟨?_, ?_, ?_⟩
    · simp [setReminder, hmsg, hfut]
    · simp [setReminder, hmsg, hfut]
    · rw [List.length_take]
      omega

/-- C10 witness: a past reminder is rejected without touching the list; a
future one is appended with an 8-character pending id — at concrete
inputs. -/
theorem c10_set_reminder_witness :
    ((setReminder (some "call mom") true (some 50) 100
        "0123456789abcdef0123456789abcdef".toList []).1.success = false ∧
      (setReminder (some "call mom") true (some 50) 100
        "0123456789abcdef0123456789abcdef".toList []).2 = []) ∧
    ((setReminder (some "call mom") true (some 150) 100
        "0123456789abcdef0123456789abcdef".toList []).1.success = true ∧
      (setReminder (some "call mom") true (some 150) 100
        "0123456789abcdef0123456789abcdef".toList []).2 =
        [⟨"0123456789abcdef0123456789abcdef".toList.take 8, "call mom", 150, 100,
          RStatus.pending⟩] ∧
      ("0123456789abcdef0123456789abcdef".toList.take 8).length = 8) :=
  ⟨(c10_set_reminder (some "call mom") true (some 50) 50 100
      "0123456789abcdef0123456789abcdef".toList []).2.1 rfl (by decide),
   (c10_set_reminder (some "call mom") true (some 150) 150 100
      "0123456789abcdef0123456789abcdef".toList []).2.2 "call mom" rfl
     (by decide) rfl rfl (by decide) (by decide)⟩

end Reminder

end Novabot
